import Mathlib

/-!
# bdutil: iterator_base and typesafe_id

A shallow embedding of `bdutil/meta/iterator_base.hpp`, of the test cursor
`citirator` of `tests/meta/iterator_base_tests.cpp`, and of
`bdutil/utility/typesafe_id.hpp`.

Conventions of the embedding.

* A C++ integer type is described by its signedness and width (`ity`); a value
  of such a type is an `Int` inside the range of the type.  Conversions between
  integer types are modular (C++20).  Arithmetic that leaves the range of a
  signed type is modelled by two's complement wrap-around, which is what the
  compiled code does on the usual targets; the standard leaves it undefined.
* A cursor type `t_child` is a record of its primitives.  An optional primitive
  is an `Option`: `none` when the type does not declare it.
* An operator that does not compile for a cursor type (an unsatisfied
  `requires` clause or a failing `static_assert`) returns `none`.
* An operator that takes its cursor by reference returns the new state of that
  cursor; the reference it returns in C++ is that same object.
* The primitive `advance` of a cursor type is given the value of the argument
  it is called with; converting that value to its parameter type is part of the
  primitive, as it is part of the call in C++.
* Where a property is about which object an expression changes, the cursor objects
  live in a store, a list indexed by address, and a call returns the store it
  leaves.
-/

set_option autoImplicit false

namespace bd

/-! ## Integer types -/

/-- The widths of the integer types. -/
inductive width where
  | w8
  | w16
  | w32
  | w64
deriving DecidableEq, Repr

/-- Number of bits of a width. -/
def width.bits : width → Nat
  | w8 => 8
  | w16 => 16
  | w32 => 32
  | w64 => 64

/-- A C++ integer type: signedness and width. -/
structure ity where
  is_signed : Bool
  size : width
deriving DecidableEq, Repr

namespace ity

/-- Least value of the type (`std::numeric_limits<T>::min()`). -/
def min (t : ity) : Int := if t.is_signed then -(2 ^ (t.size.bits - 1)) else 0

/-- Greatest value of the type (`std::numeric_limits<T>::max()`). -/
def max (t : ity) : Int :=
  if t.is_signed then 2 ^ (t.size.bits - 1) - 1 else 2 ^ t.size.bits - 1

/-- Reduction of a mathematical integer into the range of the type, modulo
`2 ^ bits`. -/
def wrap (t : ity) (x : Int) : Int := (x - t.min) % 2 ^ t.size.bits + t.min

/-- The value lies in the range of the type. -/
def in_range (t : ity) (x : Int) : Prop := t.min ≤ x ∧ x ≤ t.max

instance (t : ity) (x : Int) : Decidable (t.in_range x) :=
  inferInstanceAs (Decidable (t.min ≤ x ∧ x ≤ t.max))

/-- Integer promotion: a type narrower than `int` is promoted to `int`. -/
def promote (t : ity) : ity := if t.size.bits < 32 then ⟨true, width.w32⟩ else t

end ity

/-- The type `int`. -/
def int_t : ity := ⟨true, width.w32⟩

/-- The type `unsigned int`. -/
def unsigned_t : ity := ⟨false, width.w32⟩

/-- The type `std::ptrdiff_t`. -/
def ptrdiff_t : ity := ⟨true, width.w64⟩

/-- A typed integer value, as passed to an operator whose parameter is a
constrained `auto`. -/
structure cint where
  ty : ity
  val : Int
deriving DecidableEq, Repr

namespace cint

/-- Implicit conversion of the value to the integer type `t`. -/
def convert (t : ity) (v : cint) : Int := t.wrap v.val

/-- Unary minus: the operand is promoted, the result has the promoted type. -/
def neg (v : cint) : cint := ⟨v.ty.promote, v.ty.promote.wrap (-v.val)⟩

end cint

/-! ## Capabilities and categories -/

/-- The capabilities the concepts of `bd::concepts` detect on a cursor type. -/
structure capabilities where
  has_distance_to : Bool
  has_increment : Bool
  has_decrement : Bool
  has_advance : Bool
  has_equal_to : Bool
deriving DecidableEq, Repr

namespace categories

/-- The concept `categories::random_access`. -/
def random_access (k : capabilities) : Bool := k.has_advance && k.has_distance_to

/-- The concept `categories::bidirectional`. -/
def bidirectional (k : capabilities) : Bool := random_access k || k.has_decrement

end categories

/-- The iterator category tags of the standard library. -/
inductive iterator_tag where
  | input_iterator_tag
  | forward_iterator_tag
  | bidirectional_iterator_tag
  | random_access_iterator_tag
deriving DecidableEq, Repr

open iterator_tag

/-- The member `iterator_category` of the `std::iterator_traits`
specialisation: a nest of three `std::conditional_t`. -/
def iterator_category (k : capabilities) : iterator_tag :=
  if categories.random_access k then random_access_iterator_tag
  else if categories.bidirectional k then bidirectional_iterator_tag
  else if k.has_equal_to then forward_iterator_tag
  else input_iterator_tag

/-! ## Cursor types -/

/-- A cursor type `t_child` deriving from `iterator_base<t_child>`, as the
record of its primitives.  `σ` is the state of a cursor object, `ρ` what
`dereference` returns.  `distance_to` carries its declared return type.
`advance` receives the value of the argument of the call, of whatever integer
type that argument is, and converts it to its own parameter type. -/
structure t_child (σ ρ : Type) where
  dereference : σ → ρ
  increment : Option (σ → σ)
  decrement : Option (σ → σ)
  advance : Option (σ → Int → σ)
  equal_to : Option (σ → σ → Bool)
  distance_to : Option (ity × (σ → σ → Int))

namespace traits

end traits

namespace concepts

variable {σ ρ : Type}

/-- The concept `has_distance_to`. -/
def has_distance_to (cur : t_child σ ρ) : Bool := cur.distance_to.isSome

/-- The concept `has_increment`. -/
def has_increment (cur : t_child σ ρ) : Bool := cur.increment.isSome

/-- The concept `has_decrement`. -/
def has_decrement (cur : t_child σ ρ) : Bool := cur.decrement.isSome

/-- The concept `has_advance`. -/
def has_advance (cur : t_child σ ρ) : Bool := cur.advance.isSome

/-- The concept `has_equal_to`. -/
def has_equal_to (cur : t_child σ ρ) : Bool := cur.equal_to.isSome

end concepts

/-- The capabilities detected on a cursor type. -/
def capabilities_of {σ ρ : Type} (cur : t_child σ ρ) : capabilities where
  has_distance_to := concepts.has_distance_to cur
  has_increment := concepts.has_increment cur
  has_decrement := concepts.has_decrement cur
  has_advance := concepts.has_advance cur
  has_equal_to := concepts.has_equal_to cur

namespace iterator_traits

/-- The category `std::iterator_traits<t_iter>::iterator_category` of a cursor
type. -/
def category {σ ρ : Type} (cur : t_child σ ρ) : iterator_tag :=
  bd.iterator_category (capabilities_of cur)

end iterator_traits

/-! ## The operators of `iterator_base` -/

namespace iterator_base

variable {σ ρ : Type}

/-- The member `operator*`. -/
def operator_star (cur : t_child σ ρ) (self : σ) : ρ := cur.dereference self

/-- The friend `operator+=(self_type& self, auto offset)`:
`self.advance(offset)`, the argument being handed to `advance` as it is.  The
result is the new state of `self`, which is also the object the returned
reference designates. -/
def operator_plus_eq (cur : t_child σ ρ) (self : σ) (offset : cint) : Option σ :=
  match cur.advance with
  | some adv => some (adv self offset.val)
  | none => none

/-- The friend `operator+(self_type left, auto off)`: `left` is the by-value
parameter, a copy of the argument; the result is `left += off`. -/
def operator_plus (cur : t_child σ ρ) (left : σ) (off : cint) : Option σ :=
  operator_plus_eq cur left off

/-- The friend `operator+(auto off, self_type right)`. -/
def operator_plus_left (cur : t_child σ ρ) (off : cint) (right : σ) : Option σ :=
  operator_plus_eq cur right off

/-- The friend `operator-(self_type left, auto off)`: `left + -off`, the minus
being taken in the type of `off`. -/
def operator_minus_offset (cur : t_child σ ρ) (left : σ) (off : cint) : Option σ :=
  operator_plus cur left off.neg

/-- The friend `operator-=(self_type& left, auto off)`: `left = left - off`. -/
def operator_minus_eq (cur : t_child σ ρ) (left : σ) (off : cint) : Option σ :=
  operator_minus_offset cur left off

/-- The const member `operator[]`: `*(self() + off)`, as a function of the
state of the cursor. -/
def operator_index (cur : t_child σ ρ) (self : σ) (off : cint) : Option ρ :=
  match operator_plus cur self off with
  | some moved => some (operator_star cur moved)
  | none => none

/-- The member `operator++()`: the new state of the cursor. -/
def operator_pre_inc (cur : t_child σ ρ) (self : σ) : Option σ :=
  match cur.increment with
  | some inc => some (inc self)
  | none => operator_plus_eq cur self ⟨int_t, 1⟩

/-- The member `operator++(int)`: the returned copy and the new state of the
cursor. -/
def operator_post_inc (cur : t_child σ ρ) (self : σ) : Option (σ × σ) :=
  let copy := self
  match operator_pre_inc cur self with
  | some stepped => some (copy, stepped)
  | none => none

/-- The friend `operator==`. -/
def operator_eq (cur : t_child σ ρ) (left right : σ) : Option Bool :=
  match cur.equal_to with
  | some eq => some (eq left right)
  | none =>
    match cur.distance_to with
    | some (_, dist) => some (dist left right == 0)
    | none => none

/-- The member `operator--()`: the new state of the cursor. -/
def operator_pre_dec (cur : t_child σ ρ) (self : σ) : Option σ :=
  match cur.decrement with
  | some dec => some (dec self)
  | none => operator_minus_eq cur self ⟨int_t, 1⟩

/-- The friend `operator-(const self_type& left, const self_type& right)`:
`right.distance_to(left)`, in the return type of `distance_to`. -/
def operator_minus (cur : t_child σ ρ) (left right : σ) : Option cint :=
  match cur.distance_to with
  | some (t, dist) => some ⟨t, dist right left⟩
  | none => none

/-- The friend `operator<=>`: `(left - right) <=> 0`. -/
def operator_spaceship (cur : t_child σ ρ) (left right : σ) : Option Ordering :=
  match operator_minus cur left right with
  | some d => some (compare d.val 0)
  | none => none

end iterator_base

/-! ## The test cursor `citirator` -/

/-- The scoped enumeration `city`, of underlying type `int`: a value of the
enumeration is a value of `int`. -/
structure city where
  underlying : Int
  is_int : int_t.in_range underlying
deriving DecidableEq, Repr

namespace city

def brisbane : city := ⟨0, by decide⟩
def sydney : city := ⟨1, by decide⟩
def melbourne : city := ⟨2, by decide⟩
def hobart : city := ⟨3, by decide⟩
def perth : city := ⟨4, by decide⟩
def adelaide : city := ⟨5, by decide⟩
def darwin : city := ⟨6, by decide⟩
def canberra : city := ⟨7, by decide⟩

end city

/-- Conversion to `int` of a value computed in a wider type, with the proof
that the result is an `int`. -/
def to_int (x : Int) : { y : Int // int_t.in_range y } :=
  ⟨int_t.wrap x, by
    simp only [ity.in_range, ity.wrap, ity.min, ity.max, int_t, width.bits]
    norm_num
    omega⟩

/-- The cast `static_cast<city>(x)` of an integer expression. -/
def static_cast_city (x : Int) : city := ⟨(to_int x).1, (to_int x).2⟩

/-- The function `std::to_underlying` on `city`. -/
def to_underlying (c : city) : Int := c.underlying

/-- The class `citirator`: its only member is `int m_pos = 0`. -/
structure citirator where
  m_pos : Int := 0
  is_int : int_t.in_range m_pos := by decide
deriving DecidableEq, Repr

namespace citirator

/-- The constructor `citirator(city c)`. -/
def of_city (c : city) : citirator := ⟨to_underlying c, c.is_int⟩

/-- The primitive `dereference`: `static_cast<city>(m_pos)`. -/
def dereference (self : citirator) : city := ⟨self.m_pos, self.is_int⟩

/-- The primitive `advance(std::ptrdiff_t off)`: the argument is converted to
`std::ptrdiff_t`; `m_pos += off` takes the sum in `std::ptrdiff_t` and converts
it back to `int`. -/
def advance (self : citirator) (off : Int) : citirator :=
  ⟨(to_int (ptrdiff_t.wrap (self.m_pos + ptrdiff_t.wrap off))).1,
    (to_int (ptrdiff_t.wrap (self.m_pos + ptrdiff_t.wrap off))).2⟩

/-- The primitive `distance_to`: `other.m_pos - m_pos`, the difference taken in
`int` and returned as `std::ptrdiff_t`. -/
def distance_to (self other : citirator) : Int :=
  ptrdiff_t.wrap (int_t.wrap (other.m_pos - self.m_pos))

/-- The expression `citirator{static_cast<city>(p)}`: the cursor at position
`p`. -/
def at_pos (p : Int) : citirator := of_city (static_cast_city p)

end citirator

/-- The cursor type `citirator`: `dereference`, `advance` and `distance_to`. -/
def citirator_child : t_child citirator city where
  dereference := citirator.dereference
  increment := none
  decrement := none
  advance := some citirator.advance
  equal_to := none
  distance_to := some (ptrdiff_t, citirator.distance_to)

namespace city_range

/-- The member `begin()`: `citirator{}`. -/
def begin_pos : citirator := {}

/-- The member `end()`: the cursor at `to_underlying(city::canberra) + 1`. -/
def end_pos : citirator :=
  citirator.of_city (static_cast_city (to_underlying city.canberra + 1))

end city_range

/-! ## typesafe_id -/

/-- The class template `typesafe_id<IdName, T, Invalid>`; the tag `IdName` only
tells instantiations apart and is left out.  The member `_id` has the default
member initialiser `Invalid`. -/
structure typesafe_id (T : ity) (Invalid : Int) where
  _id : Int := Invalid
deriving DecidableEq, Repr

/-- The default of the template parameter `Invalid`:
`std::numeric_limits<T>::max()`. -/
def default_Invalid (T : ity) : Int := T.max

namespace typesafe_id

variable {T : ity} {Invalid : Int}

/-- The defaulted default constructor. -/
def default_ctor : typesafe_id T Invalid := {}

/-- The constructor `explicit typesafe_id(value_type id)`. -/
def of_value (id : Int) : typesafe_id T Invalid := ⟨id⟩

/-- The constructor `typesafe_id(nullid_t)`. -/
def of_nullid : typesafe_id T Invalid := {}

/-- The assignment `operator=(nullid_t)`: the new state of the id. -/
def assign_nullid (_self : typesafe_id T Invalid) : typesafe_id T Invalid := ⟨Invalid⟩

/-- The member `value()`. -/
def value (self : typesafe_id T Invalid) : Int := self._id

/-- The member `is_valid()`. -/
def is_valid (self : typesafe_id T Invalid) : Bool := self._id != Invalid

/-- The conversion `explicit operator bool()`. -/
def operator_bool (self : typesafe_id T Invalid) : Bool := self.is_valid

/-- The member `or_else(F&& f)`. -/
def or_else (self : typesafe_id T Invalid) (f : Unit → typesafe_id T Invalid) :
    typesafe_id T Invalid :=
  if !self.is_valid then f () else self

/-- The member `transform(F&& f)`. -/
def transform {α : Type} (self : typesafe_id T Invalid) (f : typesafe_id T Invalid → α) :
    Option α :=
  if self.is_valid then some (f self) else none

/-- The defaulted `operator==`. -/
def operator_eq (a b : typesafe_id T Invalid) : Bool := a._id == b._id

end typesafe_id

/-- The alias `test_id` of the tests: `typesafe_id<test_id_tag, int>`. -/
abbrev test_id : Type := typesafe_id int_t (default_Invalid int_t)

/-! ## Capability sets of the scenarios -/

/-- A cursor type that declares `dereference` and `increment` only. -/
def increment_only : capabilities where
  has_distance_to := false
  has_increment := true
  has_decrement := false
  has_advance := false
  has_equal_to := false

/-- A cursor type that declares `dereference`, `increment` and `decrement`, and
neither `equal_to` nor `distance_to`. -/
def stepping_only : capabilities where
  has_distance_to := false
  has_increment := true
  has_decrement := true
  has_advance := false
  has_equal_to := false

/-! ## A cursor type with a one-sided distance -/

/-- The type `std::size_t`. -/
def size_t : ity := ⟨false, width.w64⟩

/-- A cursor over the positions `0, 1, 2, ...` that counts forward only: it
declares `dereference`, `increment` and a `distance_to` that returns, as a
`std::size_t`, the number of increments that lead from the cursor to `other`,
and zero when `other` is not ahead. -/
def counting_child : t_child Nat Nat where
  dereference := fun self => self
  increment := some (fun self => self + 1)
  decrement := none
  advance := none
  equal_to := none
  distance_to := some (size_t, fun self other => ((other - self : Nat) : Int))

/-! ## Post-decrement and the passing of cursors -/

namespace iterator_base

variable {σ ρ : Type}

/-- The member `operator--(int)`: `auto copy = *this; --*this; return copy;`.
Here `*this` has the type `iterator_base<t_child>`, so `copy` is a copy of the
base subobject, which has no data member, and `return copy` converts it to
`self_type`.  `from_base` is the value that conversion yields when the cursor
type declares a constructor from `iterator_base<t_child>`, and `none` when it
declares none.  The result is the returned cursor and the new state of the
cursor. -/
def operator_post_dec (cur : t_child σ ρ) (from_base : Option σ) (self : σ) :
    Option (σ × σ) :=
  match operator_pre_dec cur self with
  | some stepped =>
    match from_base with
    | some copy => some (copy, stepped)
    | none => none
  | none => none

/-- An expression that hands the cursor object `c` to a parameter of type
`self_type&` and yields the reference the callee returns to it: the cursor the
expression designates, paired with the state of `c` after it, are one object. -/
def by_reference (f : σ → Option σ) (c : σ) : Option (σ × σ) :=
  match f c with
  | some s => some (s, s)
  | none => none

/-- A new cursor object initialised with `v`, placed after the objects of the
store: its address and the store that holds it. -/
def new_object (st : List σ) (v : σ) : Nat × List σ := (st.length, st ++ [v])

/-- A call of `operator+=` on the cursor object at the address `self`: the
object is replaced by its new state; the result is the address the returned
reference designates, `self`, and the store after the call. -/
def call_plus_eq (cur : t_child σ ρ) (st : List σ) (self : Nat) (offset : cint) :
    Option (Nat × List σ) :=
  match st[self]? with
  | none => none
  | some s =>
    match operator_plus_eq cur s offset with
    | none => none
    | some s' => some (self, st.set self s')

/-- A call of `operator+(self_type left, auto off)` with the cursor object at
the address `arg` as first argument: the parameter `left` is a new object, a
copy of the argument; the body is `left += off`; the cursor returned, by
value, is a copy of the object that reference designates.  The result is the
returned cursor and the store after the call. -/
def call_plus (cur : t_child σ ρ) (st : List σ) (arg : Nat) (off : cint) :
    Option (σ × List σ) :=
  match st[arg]? with
  | none => none
  | some v =>
    match call_plus_eq cur (new_object st v).2 (new_object st v).1 off with
    | none => none
    | some (r, st') =>
      match st'[r]? with
      | none => none
      | some result => some (result, st')

/-- A call of `operator+(auto off, self_type right)` with the cursor object at
the address `arg` as second argument: the parameter `right` is a new object,
the body is `right += off`. -/
def call_plus_left (cur : t_child σ ρ) (st : List σ) (off : cint) (arg : Nat) :
    Option (σ × List σ) :=
  match st[arg]? with
  | none => none
  | some v =>
    match call_plus_eq cur (new_object st v).2 (new_object st v).1 off with
    | none => none
    | some (r, st') =>
      match st'[r]? with
      | none => none
      | some result => some (result, st')

/-- A call of `operator[]` on the cursor object at the address `this`:
`*(self() + off)`.  The result is the dereferenced value and the store after
the call. -/
def call_index (cur : t_child σ ρ) (st : List σ) (this : Nat) (off : cint) :
    Option (ρ × List σ) :=
  match call_plus cur st this off with
  | none => none
  | some (moved, st') => some (operator_star cur moved, st')

end iterator_base

/-! ## Further cursor types -/

/-- A cursor type that declares `dereference` and `increment` only: a counter. -/
def stepper_child : t_child Nat Nat where
  dereference := fun self => self
  increment := some (fun self => self + 1)
  decrement := none
  advance := none
  equal_to := none
  distance_to := none

/-- A cursor type whose position is a `std::ptrdiff_t`: it declares
`dereference`, which returns the position, `advance(std::ptrdiff_t off)`, which
adds the offset to the position, and `distance_to`, the difference of the
positions. -/
def index_child : t_child Int Int where
  dereference := fun self => self
  increment := none
  decrement := none
  advance := some (fun self off => ptrdiff_t.wrap (self + ptrdiff_t.wrap off))
  equal_to := none
  distance_to := some (ptrdiff_t, fun self other => ptrdiff_t.wrap (other - self))

/-- A position held in a `std::ptrdiff_t`. -/
structure wide_pos where
  pos : Int
  is_ptrdiff : ptrdiff_t.in_range pos
deriving DecidableEq, Repr

/-- Conversion to `std::ptrdiff_t`, with the proof that the result is a value of
that type. -/
def to_ptrdiff (x : Int) : { y : Int // ptrdiff_t.in_range y } :=
  ⟨ptrdiff_t.wrap x, by
    simp only [ity.in_range, ity.wrap, ity.min, ity.max, ptrdiff_t, width.bits]
    norm_num
    omega⟩

/-- The position `p`, converted to `std::ptrdiff_t`. -/
def wide_pos.at_pos (p : Int) : wide_pos := ⟨(to_ptrdiff p).1, (to_ptrdiff p).2⟩

/-- A cursor type that holds the number of its sequence and a position in it:
`equal_to` compares both members, `distance_to` is the difference of the
positions, `advance(std::ptrdiff_t off)` adds the offset to the position. -/
def tagged_child : t_child (Nat × Int) Int where
  dereference := fun self => self.2
  increment := none
  decrement := none
  advance := some (fun self off => (self.1, ptrdiff_t.wrap (self.2 + ptrdiff_t.wrap off)))
  equal_to := some (fun self other => self.1 == other.1 && self.2 == other.2)
  distance_to := some (ptrdiff_t, fun self other => ptrdiff_t.wrap (other.2 - self.2))

/-- The cursor type `citirator` with a primitive `equal_to` that compares the
positions. -/
def citirator_eq_child : t_child citirator city :=
  { citirator_child with equal_to := some (fun self other => self.m_pos == other.m_pos) }

end bd

/-! # Theorems -/

namespace bd

open iterator_base iterator_tag

/-! ## Arithmetic of the integer types -/

theorem int_t_wrap (x : Int) :
    int_t.wrap x = (x + 2147483648) % 4294967296 - 2147483648 := by
  simp only [ity.wrap, ity.min, int_t, width.bits]
  norm_num
  omega

theorem ptrdiff_t_wrap (x : Int) :
    ptrdiff_t.wrap x =
      (x + 9223372036854775808) % 18446744073709551616 - 9223372036854775808 := by
  simp only [ity.wrap, ity.min, ptrdiff_t, width.bits]
  norm_num
  omega

theorem int_t_in_range (x : Int) :
    int_t.in_range x ↔ -2147483648 ≤ x ∧ x ≤ 2147483647 := by
  simp only [ity.in_range, ity.min, ity.max, int_t, width.bits]
  norm_num

/-- A value of the type is its own conversion to the type. -/
theorem wrap_of_in_range (t : ity) (x : Int) (h : t.in_range x) : t.wrap x = x := by
  obtain ⟨sg, w⟩ := t
  cases sg <;> cases w <;>
    simp only [ity.in_range, ity.wrap, ity.min, ity.max, width.bits] at h ⊢ <;>
    norm_num at h ⊢ <;> omega

/-- A conversion lands in the range of its target type. -/
theorem wrap_in_range (t : ity) (x : Int) : t.in_range (t.wrap x) := by
  obtain ⟨sg, w⟩ := t
  cases sg <;> cases w <;>
    simp only [ity.in_range, ity.wrap, ity.min, ity.max, width.bits] <;>
    norm_num <;> omega

/-- Every capability set is the capability set of a cursor type. -/
theorem capabilities_realised (k : capabilities) :
    ∃ cur : t_child Unit Unit, capabilities_of cur = k := by
  refine ⟨⟨fun _ => (), if k.has_increment then some id else none,
    if k.has_decrement then some id else none,
    if k.has_advance then some (fun s _ => s) else none,
    if k.has_equal_to then some (fun _ _ => true) else none,
    if k.has_distance_to then some (ptrdiff_t, fun _ _ => 0) else none⟩, ?_⟩
  obtain ⟨a, b, c, d, e⟩ := k
  cases a <;> cases b <;> cases c <;> cases d <;> cases e <;> rfl

/-! ## Category resolution -/

/-- C1: for every capability set the resolved category is random access exactly
when `has_advance` and `has_distance_to` hold; failing that it is bidirectional
exactly when `has_decrement` holds; failing that it is forward exactly when
`has_equal_to` holds; and failing that it is input.  The cursor `citirator`
resolves to random access, a cursor with `dereference` and `increment` only to
input. -/
theorem iterator_category_resolution (k : capabilities) :
    (iterator_category k = random_access_iterator_tag ↔
      (k.has_advance = true ∧ k.has_distance_to = true)) ∧
    (¬ (k.has_advance = true ∧ k.has_distance_to = true) →
      (iterator_category k = bidirectional_iterator_tag ↔ k.has_decrement = true)) ∧
    (¬ (k.has_advance = true ∧ k.has_distance_to = true) → k.has_decrement = false →
      (iterator_category k = forward_iterator_tag ↔ k.has_equal_to = true)) ∧
    (¬ (k.has_advance = true ∧ k.has_distance_to = true) → k.has_decrement = false →
      k.has_equal_to = false → iterator_category k = input_iterator_tag) ∧
    iterator_traits.category citirator_child = random_access_iterator_tag ∧
    iterator_category increment_only = input_iterator_tag := by
  refine ⟨?_, ?_, ?_, ?_, rfl, rfl⟩ <;>
    obtain ⟨a, b, c, d, e⟩ := k <;>
    cases a <;> cases b <;> cases c <;> cases d <;> cases e <;>
    simp [iterator_category, categories.random_access, categories.bidirectional]

/-- C2, counterexample: a cursor type with `increment` and `decrement` and
neither `equal_to` nor `distance_to` resolves to bidirectional, not to input. -/
theorem stepping_only_not_input :
    stepping_only.has_equal_to = false ∧ stepping_only.has_distance_to = false ∧
    iterator_category stepping_only = bidirectional_iterator_tag ∧
    iterator_category stepping_only ≠ input_iterator_tag := by
  decide

/-- C2, amended: for every capability set with neither `equal_to` nor
`distance_to`, the resolved category is never forward nor random access; it is
bidirectional when `has_decrement` holds and input otherwise, whatever
`has_increment` and `has_advance` are. -/
theorem category_without_comparison (k : capabilities)
    (heq : k.has_equal_to = false) (hdist : k.has_distance_to = false) :
    iterator_category k ≠ forward_iterator_tag ∧
    iterator_category k ≠ random_access_iterator_tag ∧
    (k.has_decrement = true → iterator_category k = bidirectional_iterator_tag) ∧
    (k.has_decrement = false → iterator_category k = input_iterator_tag) := by
  obtain ⟨a, b, c, d, e⟩ := k
  simp only at heq hdist
  subst heq hdist
  cases b <;> cases c <;> cases d <;>
    simp [iterator_category, categories.random_access, categories.bidirectional]

/-- The increment-only capability set has neither `equal_to` nor `distance_to`
and no `decrement`: it resolves to input. -/
theorem category_without_comparison_witness :
    increment_only.has_equal_to = false ∧ increment_only.has_distance_to = false ∧
    iterator_category increment_only ≠ forward_iterator_tag ∧
    iterator_category increment_only ≠ random_access_iterator_tag ∧
    (increment_only.has_decrement = true →
      iterator_category increment_only = bidirectional_iterator_tag) ∧
    (increment_only.has_decrement = false →
      iterator_category increment_only = input_iterator_tag) :=
  ⟨rfl, rfl, category_without_comparison increment_only rfl rfl⟩

/-! ## The cursor `citirator` -/

theorem to_int_val (x : Int) :
    (to_int x).1 = (x + 2147483648) % 4294967296 - 2147483648 :=
  int_t_wrap x

theorem at_pos_m_pos (p : Int) (h : int_t.in_range p) : (citirator.at_pos p).m_pos = p := by
  rw [int_t_in_range] at h
  simp only [citirator.at_pos, citirator.of_city, static_cast_city, to_underlying, to_int_val]
  omega

theorem advance_m_pos (c : citirator) (off : Int) :
    (c.advance off).m_pos = (c.m_pos + off + 2147483648) % 4294967296 - 2147483648 := by
  simp only [citirator.advance, to_int_val, ptrdiff_t_wrap]
  omega

theorem distance_to_val (a b : citirator) :
    a.distance_to b = (b.m_pos - a.m_pos + 2147483648) % 4294967296 - 2147483648 := by
  simp only [citirator.distance_to, int_t_wrap, ptrdiff_t_wrap]
  omega

theorem m_pos_bounds (c : citirator) : -2147483648 ≤ c.m_pos ∧ c.m_pos ≤ 2147483647 :=
  (int_t_in_range c.m_pos).1 c.is_int

/-- C3: over the city range, for a start position `p` and an offset `n` with
`0 ≤ p ≤ 8` and `0 ≤ p + n ≤ 8`, in whatever integer type `ty` the offset is
passed: `citirator(p)` is at position `p`, `citirator(p) + n` is defined, dereferences to the value `p + n`, is at
distance `n` from `citirator(p)` both through `-` and through `distance_to`, and
compares equal to `citirator(p + n)`. -/
theorem citirator_advance_scenario (ty : ity) (p n : Int)
    (hp : 0 ≤ p ∧ p ≤ 8) (hn : 0 ≤ p + n ∧ p + n ≤ 8) :
    (citirator.at_pos p).m_pos = p ∧
    ∃ moved, operator_plus citirator_child (citirator.at_pos p) ⟨ty, n⟩ = some moved ∧
      (operator_star citirator_child moved).underlying = p + n ∧
      operator_minus citirator_child moved (citirator.at_pos p) = some ⟨ptrdiff_t, n⟩ ∧
      (citirator.at_pos p).distance_to moved = n ∧
      operator_eq citirator_child moved (citirator.at_pos (p + n)) = some true := by
  have hp0 : (citirator.at_pos p).m_pos = p :=
    at_pos_m_pos p ((int_t_in_range p).2 (by omega))
  have hpn : (citirator.at_pos (p + n)).m_pos = p + n :=
    at_pos_m_pos (p + n) ((int_t_in_range (p + n)).2 (by omega))
  have hmoved : ((citirator.at_pos p).advance n).m_pos = p + n := by
    rw [advance_m_pos, hp0]
    omega
  refine ⟨hp0, (citirator.at_pos p).advance n, ?_, ?_, ?_, ?_, ?_⟩
  · simp only [operator_plus, operator_plus_eq, citirator_child]
  · simp only [operator_star, citirator_child, citirator.dereference, hmoved]
  · simp only [operator_minus, citirator_child, distance_to_val, hmoved, hp0]
    congr 2
    omega
  · rw [distance_to_val, hmoved, hp0]
    omega
  · simp only [operator_eq, citirator_child, distance_to_val, hmoved, hpn]
    simp

/-- The scenario with start position 0 and the `int` offset 3. -/
theorem citirator_advance_scenario_witness :
    (citirator.at_pos 0).m_pos = 0 ∧
    ∃ moved, operator_plus citirator_child (citirator.at_pos 0) ⟨int_t, 3⟩ = some moved ∧
      (operator_star citirator_child moved).underlying = 0 + 3 ∧
      operator_minus citirator_child moved (citirator.at_pos 0) = some ⟨ptrdiff_t, 3⟩ ∧
      (citirator.at_pos 0).distance_to moved = 3 ∧
      operator_eq citirator_child moved (citirator.at_pos (0 + 3)) = some true :=
  citirator_advance_scenario int_t 0 3 (by decide) (by decide)

/-- Synthesised equality on `citirator` is equality of positions. -/
theorem citirator_operator_eq (a b : citirator) :
    operator_eq citirator_child a b = some (decide (a.m_pos = b.m_pos)) := by
  have ha := m_pos_bounds a
  have hb := m_pos_bounds b
  simp only [operator_eq, citirator_child, distance_to_val]
  congr 1
  by_cases h : a.m_pos = b.m_pos
  · simp [h]
  · have : (b.m_pos - a.m_pos + 2147483648) % 4294967296 - 2147483648 ≠ 0 := by omega
    simp [h, this]

/-! ## Offset arithmetic -/

/-- A call of `operator+=` on a stored cursor replaces that cursor by its
advanced state and returns its address. -/
theorem call_plus_eq_spec {σ ρ : Type} (cur : t_child σ ρ) (adv : σ → Int → σ)
    (hadv : cur.advance = some adv) (st : List σ) (a : Nat) (c : σ)
    (hc : st[a]? = some c) (n : cint) :
    call_plus_eq cur st a n = some (a, st.set a (adv c n.val)) := by
  simp only [call_plus_eq, hc, operator_plus_eq, hadv]

/-- A call of `operator+` on a stored cursor returns the advanced copy and
leaves a store that holds the parameter object after the objects it had. -/
theorem call_plus_spec {σ ρ : Type} (cur : t_child σ ρ) (adv : σ → Int → σ)
    (hadv : cur.advance = some adv) (st : List σ) (a : Nat) (c : σ)
    (hc : st[a]? = some c) (n : cint) :
    call_plus cur st a n = some (adv c n.val, st ++ [adv c n.val]) := by
  have hnew : (st ++ [c])[st.length]? = some c := by simp
  simp only [call_plus, hc, new_object, call_plus_eq_spec cur adv hadv _ _ c hnew]
  simp

/-- The same for `operator+` with the offset on the left. -/
theorem call_plus_left_spec {σ ρ : Type} (cur : t_child σ ρ) (adv : σ → Int → σ)
    (hadv : cur.advance = some adv) (st : List σ) (a : Nat) (c : σ)
    (hc : st[a]? = some c) (n : cint) :
    call_plus_left cur st n a = some (adv c n.val, st ++ [adv c n.val]) := by
  have hnew : (st ++ [c])[st.length]? = some c := by simp
  simp only [call_plus_left, hc, new_object, call_plus_eq_spec cur adv hadv _ _ c hnew]
  simp

/-- A store extended by one object holds its former objects at their
addresses. -/
theorem store_extended {σ : Type} (st : List σ) (v : σ) (b : Nat) (hb : b < st.length) :
    (st ++ [v])[b]? = st[b]? := by
  simp [List.getElem?_append_left hb]

/-- The address of a stored object lies inside the store. -/
theorem address_in_store {σ : Type} (st : List σ) (a : Nat) (c : σ) (hc : st[a]? = some c) :
    a < st.length :=
  (List.getElem?_eq_some_iff.1 hc).1

/-- C5: for a cursor type providing `advance`, a cursor object `c` and an
offset `n`, `c + n` is a copy of `c` advanced by `n`, `c[n]` is the dereference
of that copy, that is `*(c + n)`, and after the indexing `c`, like every other
cursor object there was, is in the state it had. -/
theorem index_is_star_of_plus {σ ρ : Type} (cur : t_child σ ρ) (adv : σ → Int → σ)
    (hadv : cur.advance = some adv) (st : List σ) (a : Nat) (c : σ)
    (hc : st[a]? = some c) (n : cint) :
    ∃ moved st', call_plus cur st a n = some (moved, st') ∧
      moved = adv c n.val ∧
      call_index cur st a n = some (operator_star cur moved, st') ∧
      operator_index cur c n = some (operator_star cur moved) ∧
      st'[a]? = some c ∧ (∀ b, b < st.length → st'[b]? = st[b]?) := by
  refine ⟨adv c n.val, st ++ [adv c n.val], call_plus_spec cur adv hadv st a c hc n, rfl,
    ?_, ?_, ?_, ?_⟩
  · simp only [call_index, call_plus_spec cur adv hadv st a c hc n]
  · simp only [operator_index, operator_plus, operator_plus_eq, hadv]
  · rw [store_extended _ _ _ (address_in_store st a c hc), hc]
  · intro b hb
    exact store_extended _ _ _ hb

/-- Indexing the `citirator` object at position 0, alone in the store, with the
`int` offset 3. -/
theorem index_is_star_of_plus_witness :
    ∃ moved st', call_plus citirator_child [citirator.at_pos 0] 0 ⟨int_t, 3⟩ = some (moved, st') ∧
      moved = citirator.advance (citirator.at_pos 0) 3 ∧
      call_index citirator_child [citirator.at_pos 0] 0 ⟨int_t, 3⟩ =
        some (operator_star citirator_child moved, st') ∧
      operator_index citirator_child (citirator.at_pos 0) ⟨int_t, 3⟩ =
        some (operator_star citirator_child moved) ∧
      st'[0]? = some (citirator.at_pos 0) ∧
      (∀ b, b < [citirator.at_pos 0].length → st'[b]? = [citirator.at_pos 0][b]?) :=
  index_is_star_of_plus citirator_child citirator.advance rfl [citirator.at_pos 0] 0
    (citirator.at_pos 0) rfl ⟨int_t, 3⟩

/-! ## Stepping -/

/-- C6: for a cursor type providing `increment` or `advance`, `++c` is defined,
`c++` returns `c` as it was before the call, and leaves the cursor in the state
`++c` produces from that value. -/
theorem post_increment_saves_then_steps {σ ρ : Type} (cur : t_child σ ρ) (c : σ)
    (h : concepts.has_increment cur = true ∨ concepts.has_advance cur = true) :
    ∃ stepped, operator_pre_inc cur c = some stepped ∧
      operator_post_inc cur c = some (c, stepped) := by
  have hpre : ∃ stepped, operator_pre_inc cur c = some stepped := by
    unfold operator_pre_inc operator_plus_eq
    cases hi : cur.increment with
    | some inc => exact ⟨_, rfl⟩
    | none =>
      cases ha : cur.advance with
      | some adv => exact ⟨_, rfl⟩
      | none => simp [concepts.has_increment, concepts.has_advance, hi, ha] at h
  obtain ⟨stepped, hs⟩ := hpre
  exact ⟨stepped, hs, by simp only [operator_post_inc, hs]⟩

/-- Post-increment of `citirator` at position 0, which steps through
`advance`. -/
theorem post_increment_saves_then_steps_witness :
    ∃ stepped, operator_pre_inc citirator_child (citirator.at_pos 0) = some stepped ∧
      operator_post_inc citirator_child (citirator.at_pos 0) =
        some (citirator.at_pos 0, stepped) :=
  post_increment_saves_then_steps citirator_child (citirator.at_pos 0) (Or.inr rfl)

/-! ## Equality and difference -/

/-- The distance between two `citirator` cursors is zero exactly when they are
at the same position. -/
theorem citirator_distance_zero (x y : citirator) :
    x.distance_to y = 0 ↔ x.m_pos = y.m_pos := by
  have hx := m_pos_bounds x
  have hy := m_pos_bounds y
  rw [distance_to_val]
  omega

/-- C7, counterexample: on the forward-counting cursor, which has no
`equal_to`, with `a` at position 1 and `b` at position 0, `a == b` is true
(`a.distance_to(b)` is zero) while `a - b` is 1 (`b.distance_to(a)`), not zero;
on the cursor that holds the number of its sequence, which has an `equal_to`,
with `a` and `b` at position 3 of the sequences 0 and 1, `a == b` is false
while `a - b` is zero. -/
theorem equality_apart_from_difference :
    (concepts.has_distance_to counting_child = true ∧
      concepts.has_equal_to counting_child = false ∧
      operator_eq counting_child 1 0 = some true ∧
      operator_minus counting_child 1 0 = some ⟨size_t, 1⟩) ∧
    (concepts.has_distance_to tagged_child = true ∧
      concepts.has_equal_to tagged_child = true ∧
      operator_eq tagged_child (0, 3) (1, 3) = some false ∧
      operator_minus tagged_child (0, 3) (1, 3) = some ⟨ptrdiff_t, 0⟩) := by
  decide

/-- C7, amended: for a cursor type providing `distance_to`, whose `distance_to`
is zero exactly between cursors at the same position and whose `equal_to`, when
present, is true exactly between cursors at the same position, and for cursors
`a` and `b`: `a == b` is defined, `a - b` is `b.distance_to(a)`, and `a == b`
holds exactly when `a - b == 0`.  The cursor `citirator` is such a type. -/
theorem eq_iff_difference_zero {σ ρ π : Type} (cur : t_child σ ρ) (t : ity)
    (dist : σ → σ → Int) (hd : cur.distance_to = some (t, dist)) (pos : σ → π)
    (hdist : ∀ x y, dist x y = 0 ↔ pos x = pos y)
    (heq : ∀ eq, cur.equal_to = some eq → ∀ x y, (eq x y = true ↔ pos x = pos y))
    (a b : σ) :
    (∃ e, operator_eq cur a b = some e ∧ operator_minus cur a b = some ⟨t, dist b a⟩ ∧
      (e = true ↔ dist b a = 0)) ∧
    (∀ x y : citirator, ∃ e, operator_eq citirator_child x y = some e ∧
      operator_minus citirator_child x y = some ⟨ptrdiff_t, y.distance_to x⟩ ∧
      (e = true ↔ y.distance_to x = 0)) := by
  have hflip : dist b a = 0 ↔ pos a = pos b := by
    rw [hdist b a]
    exact eq_comm
  constructor
  · cases he : cur.equal_to with
    | some eq =>
      refine ⟨eq a b, ?_, ?_, ?_⟩
      · simp only [operator_eq, he]
      · simp only [operator_minus, hd]
      · rw [heq eq he a b, hflip]
    | none =>
      refine ⟨dist a b == 0, ?_, ?_, ?_⟩
      · simp only [operator_eq, he, hd]
      · simp only [operator_minus, hd]
      · rw [beq_iff_eq, hdist a b, hflip]
  · intro x y
    refine ⟨decide (x.m_pos = y.m_pos), citirator_operator_eq x y, rfl, ?_⟩
    rw [decide_eq_true_iff, citirator_distance_zero]
    exact eq_comm

/-- Equality and difference of the `citirator` cursors at positions 0 and 3,
without and with a primitive `equal_to` that compares the positions. -/
theorem eq_iff_difference_zero_witness :
    ((∃ e, operator_eq citirator_child (citirator.at_pos 0) (citirator.at_pos 3) = some e ∧
        operator_minus citirator_child (citirator.at_pos 0) (citirator.at_pos 3) =
          some ⟨ptrdiff_t, (citirator.at_pos 3).distance_to (citirator.at_pos 0)⟩ ∧
        (e = true ↔ (citirator.at_pos 3).distance_to (citirator.at_pos 0) = 0)) ∧
      (∀ x y : citirator, ∃ e, operator_eq citirator_child x y = some e ∧
        operator_minus citirator_child x y = some ⟨ptrdiff_t, y.distance_to x⟩ ∧
        (e = true ↔ y.distance_to x = 0))) ∧
    ((∃ e, operator_eq citirator_eq_child (citirator.at_pos 0) (citirator.at_pos 3) = some e ∧
        operator_minus citirator_eq_child (citirator.at_pos 0) (citirator.at_pos 3) =
          some ⟨ptrdiff_t, (citirator.at_pos 3).distance_to (citirator.at_pos 0)⟩ ∧
        (e = true ↔ (citirator.at_pos 3).distance_to (citirator.at_pos 0) = 0)) ∧
      (∀ x y : citirator, ∃ e, operator_eq citirator_child x y = some e ∧
        operator_minus citirator_child x y = some ⟨ptrdiff_t, y.distance_to x⟩ ∧
        (e = true ↔ y.distance_to x = 0))) :=
  ⟨eq_iff_difference_zero citirator_child ptrdiff_t citirator.distance_to rfl
      (fun c => c.m_pos) citirator_distance_zero (fun _ h => nomatch h)
      (citirator.at_pos 0) (citirator.at_pos 3),
    eq_iff_difference_zero citirator_eq_child ptrdiff_t citirator.distance_to rfl
      (fun c => c.m_pos) citirator_distance_zero
      (fun eq h x y => by
        have he : eq = fun self other : citirator => self.m_pos == other.m_pos :=
          (Option.some.inj h).symm
        rw [he]
        exact beq_iff_eq)
      (citirator.at_pos 0) (citirator.at_pos 3)⟩

/-- C8, counterexample: with `a` at the least `int` position and `b` at
position 0, `a - b` is `-2^31` while `-(b - a)` is `2^31`: for `b - a` the
difference `b.m_pos - a.m_pos` is taken in `int`, which cannot hold `2^31`. -/
theorem citirator_difference_not_antisymmetric :
    operator_minus citirator_child (citirator.at_pos (-2147483648)) (citirator.at_pos 0) =
      some ⟨ptrdiff_t, -2147483648⟩ ∧
    (operator_minus citirator_child (citirator.at_pos 0) (citirator.at_pos (-2147483648))).map
      cint.neg = some ⟨ptrdiff_t, 2147483648⟩ := by
  decide

/-- C8, amended: for cursors `a` and `b` of `citirator` whose positions differ
by less than `2^31` in absolute value, so that both differences of positions are
values of `int` (any two positions of the city range are such), `a - b` and
`b - a` are defined and `a - b == -(b - a)`. -/
theorem citirator_difference_antisymmetric (a b : citirator)
    (h : -2147483648 < a.m_pos - b.m_pos ∧ a.m_pos - b.m_pos < 2147483648) :
    ∃ d e, operator_minus citirator_child a b = some d ∧
      operator_minus citirator_child b a = some e ∧ d = e.neg ∧
      d.val = a.m_pos - b.m_pos := by
  refine ⟨⟨ptrdiff_t, b.distance_to a⟩, ⟨ptrdiff_t, a.distance_to b⟩, rfl, rfl, ?_, ?_⟩
  · have hp : ptrdiff_t.promote = ptrdiff_t := by decide
    simp only [cint.neg, hp, distance_to_val, ptrdiff_t_wrap]
    congr 1
    omega
  · show b.distance_to a = _
    rw [distance_to_val]
    omega

/-- Antisymmetry of the difference of the `citirator` cursors at positions 3
and 0. -/
theorem citirator_difference_antisymmetric_witness :
    ∃ d e, operator_minus citirator_child (citirator.at_pos 3) (citirator.at_pos 0) = some d ∧
      operator_minus citirator_child (citirator.at_pos 0) (citirator.at_pos 3) = some e ∧
      d = e.neg ∧ d.val = (citirator.at_pos 3).m_pos - (citirator.at_pos 0).m_pos :=
  citirator_difference_antisymmetric (citirator.at_pos 3) (citirator.at_pos 0) (by decide)

/-! ## typesafe_id -/

/-- The greatest value of an integer type is a value of the type and bounds
every value of the type. -/
theorem max_is_greatest (T : ity) : T.in_range T.max ∧ ∀ y, T.in_range y → y ≤ T.max := by
  refine ⟨?_, fun y hy => hy.2⟩
  obtain ⟨sg, w⟩ := T
  cases sg <;> cases w <;> decide

/-- C9: an id built from a value `v` has that value and is valid (also through
its conversion to `bool`) exactly when `v` differs from `Invalid`; an id that is
default-constructed, built from `nullid` or assigned `nullid` has the value
`Invalid` and is not valid; and `Invalid` defaults to the greatest value of the
underlying type, `2^31 - 1` for the `int` of the tests. -/
theorem typesafe_id_validity (T : ity) (Invalid v : Int) (x : typesafe_id T Invalid) :
    (typesafe_id.of_value v : typesafe_id T Invalid).value = v ∧
    ((typesafe_id.of_value v : typesafe_id T Invalid).is_valid = true ↔ v ≠ Invalid) ∧
    ((typesafe_id.of_value v : typesafe_id T Invalid).operator_bool = true ↔ v ≠ Invalid) ∧
    ((typesafe_id.default_ctor : typesafe_id T Invalid).value = Invalid ∧
      (typesafe_id.default_ctor : typesafe_id T Invalid).is_valid = false ∧
      (typesafe_id.default_ctor : typesafe_id T Invalid).operator_bool = false) ∧
    ((typesafe_id.of_nullid : typesafe_id T Invalid).value = Invalid ∧
      (typesafe_id.of_nullid : typesafe_id T Invalid).is_valid = false ∧
      (typesafe_id.of_nullid : typesafe_id T Invalid).operator_bool = false) ∧
    (x.assign_nullid.value = Invalid ∧ x.assign_nullid.is_valid = false ∧
      x.assign_nullid.operator_bool = false) ∧
    (T.in_range (default_Invalid T) ∧ ∀ y, T.in_range y → y ≤ default_Invalid T) ∧
    default_Invalid int_t = 2147483647 := by
  refine ⟨rfl, ?_, ?_, ?_, ?_, ?_, max_is_greatest T, by decide⟩ <;>
    simp [typesafe_id.of_value, typesafe_id.default_ctor, typesafe_id.of_nullid,
      typesafe_id.assign_nullid, typesafe_id.value, typesafe_id.is_valid,
      typesafe_id.operator_bool]

/-- C10: `id.transform(f)` holds `f(id)` when the id is valid and is the empty
optional, whatever `f` is, when the id is not valid; so for the ids of the
tests, with `f` adding one to the value. -/
theorem transform_follows_validity {α : Type} (T : ity) (Invalid : Int)
    (x : typesafe_id T Invalid) (f : typesafe_id T Invalid → α) :
    (x.is_valid = true → x.transform f = some (f x)) ∧
    (x.is_valid = false → x.transform f = none) ∧
    (typesafe_id.of_value 1 : test_id).transform (fun i => int_t.wrap (i.value + 1)) = some 2 ∧
    (typesafe_id.default_ctor : test_id).transform (fun i => int_t.wrap (i.value + 1)) = none := by
  refine ⟨?_, ?_, by decide, by decide⟩
  · intro h
    simp only [typesafe_id.transform, h, if_true]
  · intro h
    simp [typesafe_id.transform, h]

/-- C11: `id.or_else(f)` is `id` itself when the id is valid, whatever `f` is,
and is `f()` when the id is not valid; so for the ids of the tests, with `f`
returning the id of value 2. -/
theorem or_else_follows_validity (T : ity) (Invalid : Int) (x : typesafe_id T Invalid)
    (f : Unit → typesafe_id T Invalid) :
    (x.is_valid = true → x.or_else f = x) ∧
    (x.is_valid = false → x.or_else f = f ()) ∧
    (typesafe_id.of_value 1 : test_id).or_else (fun _ => typesafe_id.of_value 2) =
      typesafe_id.of_value 1 ∧
    ((typesafe_id.default_ctor : test_id).or_else (fun _ => typesafe_id.of_value 2)).value = 2 := by
  refine ⟨?_, ?_, by decide, by decide⟩
  · intro h
    simp [typesafe_id.or_else, h]
  · intro h
    simp [typesafe_id.or_else, h]

/-- C12: two ids built from values `v` and `w` compare equal exactly when
`v = w`; an id compares equal to `nullid`, which converts to the id built by
`typesafe_id(nullid_t)`, exactly when it is not valid: a default-constructed id
equals `nullid` and a valid id differs from it; so for the ids of the tests. -/
theorem typesafe_id_equality (T : ity) (Invalid v w : Int) (x : typesafe_id T Invalid) :
    (typesafe_id.operator_eq (typesafe_id.of_value v : typesafe_id T Invalid)
      (typesafe_id.of_value w) = true ↔ v = w) ∧
    (typesafe_id.operator_eq x typesafe_id.of_nullid = true ↔ x.is_valid = false) ∧
    typesafe_id.operator_eq (typesafe_id.default_ctor : typesafe_id T Invalid)
      typesafe_id.of_nullid = true ∧
    (x.is_valid = true → typesafe_id.operator_eq x typesafe_id.of_nullid = false) ∧
    (typesafe_id.operator_eq (typesafe_id.of_value 1 : test_id) (typesafe_id.of_value 2) = false ∧
      typesafe_id.operator_eq (typesafe_id.of_value 1 : test_id) (typesafe_id.of_value 1) = true ∧
      typesafe_id.operator_eq (typesafe_id.of_value 1 : test_id) typesafe_id.default_ctor = false ∧
      typesafe_id.operator_eq (typesafe_id.default_ctor : test_id) typesafe_id.of_nullid = true ∧
      typesafe_id.operator_eq (typesafe_id.of_value 1 : test_id) typesafe_id.of_nullid = false) := by
  refine ⟨?_, ?_, ?_, ?_, by decide⟩ <;>
    simp [typesafe_id.operator_eq, typesafe_id.of_value, typesafe_id.of_nullid,
      typesafe_id.default_ctor, typesafe_id.is_valid]

/-! ## Subtraction of an offset -/

/-- The minus of a value of a type, taken in the promoted type when that type
is signed, is the negated value unless the value is the least of the promoted
type. -/
theorem promote_wrap_neg (t : ity) (v : Int) (hv : t.in_range v)
    (hs : t.promote.is_signed = true) (hmin : v ≠ t.promote.min) :
    t.promote.wrap (-v) = -v := by
  obtain ⟨ts, tw⟩ := t
  cases ts <;> cases tw <;>
    simp only [ity.promote, ity.wrap, ity.min, ity.max, ity.in_range, width.bits]
      at hv hs hmin ⊢ <;>
    norm_num at hv hs hmin ⊢ <;> omega

/-- Where the subtraction of an offset does negate: when the promoted type of
the argument is signed and the argument is not its least value, `c - off` is
`c` advanced by the negated value of `off`. -/
theorem minus_offset_negates {σ ρ : Type} (cur : t_child σ ρ) (adv : σ → Int → σ)
    (hadv : cur.advance = some adv) (c : σ) (off : cint) (hoff : off.ty.in_range off.val)
    (hs : off.ty.promote.is_signed = true) (hmin : off.val ≠ off.ty.promote.min) :
    operator_minus_offset cur c off = some (adv c (-off.val)) := by
  simp only [operator_minus_offset, operator_plus, operator_plus_eq, hadv, cint.neg,
    promote_wrap_neg off.ty off.val hoff hs hmin]

/-- C13, at the failing input: on the cursor type with a `std::ptrdiff_t`
position, for the cursor at position 5 and the `unsigned int` offset 1, the
minus is taken in `unsigned int` and gives 4294967295, so `c - off` is at
position 4294967300, while `c` advanced by -1 is at position 4, and
`(c + off) - off` is at position 4294967301, not at 5. -/
theorem minus_unsigned_offset_moves_forward :
    concepts.has_advance index_child = true ∧
    cint.neg ⟨unsigned_t, 1⟩ = ⟨unsigned_t, 4294967295⟩ ∧
    operator_minus_offset index_child 5 ⟨unsigned_t, 1⟩ = some 4294967300 ∧
    operator_plus index_child 5 ⟨ptrdiff_t, -1⟩ = some 4 ∧
    (operator_plus index_child 5 ⟨unsigned_t, 1⟩).bind
      (fun moved => operator_minus_offset index_child moved ⟨unsigned_t, 1⟩) =
      some 4294967301 := by
  decide

/-! ## Post-decrement -/

/-- What `c--` returns is the conversion of the copied base subobject. -/
theorem post_dec_returns_from_base {σ ρ : Type} (cur : t_child σ ρ) (from_base : Option σ)
    (c returned after : σ) (h : operator_post_dec cur from_base c = some (returned, after)) :
    from_base = some returned ∧ operator_pre_dec cur c = some after := by
  unfold operator_post_dec at h
  cases hpre : operator_pre_dec cur c with
  | none => rw [hpre] at h; exact absurd h (by simp)
  | some stepped =>
    rw [hpre] at h
    cases from_base with
    | none => exact absurd h (by simp)
    | some copy =>
      simp only [Option.some.injEq, Prod.mk.injEq] at h
      rw [h.1, h.2]
      exact ⟨rfl, rfl⟩

/-- C14, at the failing input: `citirator` declares no constructor from
`iterator_base<citirator>`, so for the cursor at position 3 `c--` has no value,
although `--c` leads to position 2 and `c++` returns the cursor at position 3
and leads to position 4; and whatever conversion a cursor type declares, what
`c--` returns is the conversion of the copied base subobject, the same for every
cursor `c`. -/
theorem post_decrement_returns_no_copy :
    operator_post_dec citirator_child none (citirator.at_pos 3) = none ∧
    operator_pre_dec citirator_child (citirator.at_pos 3) = some (citirator.at_pos 2) ∧
    operator_post_inc citirator_child (citirator.at_pos 3) =
      some (citirator.at_pos 3, citirator.at_pos 4) ∧
    (∀ (from_base : Option citirator) (c returned after : citirator),
      operator_post_dec citirator_child from_base c = some (returned, after) →
      from_base = some returned) :=
  ⟨by decide, by decide, by decide,
    fun from_base c returned after h =>
      (post_dec_returns_from_base citirator_child from_base c returned after h).1⟩

/-! ## Fallback orders -/

/-- The minus of the `int` literal 1 is the `int` -1. -/
theorem neg_one : cint.neg ⟨int_t, 1⟩ = ⟨int_t, -1⟩ := by decide

/-- C15: the synthesised `a == b` is `a.equal_to(b)` whenever `equal_to` is
present, whether or not `distance_to` is; it is `a.distance_to(b) == 0` when
`equal_to` is absent and `distance_to` present; and it has no value exactly when
neither is present. -/
theorem equality_fallback_order {σ ρ : Type} (cur : t_child σ ρ) (a b : σ) :
    (∀ eq, cur.equal_to = some eq → operator_eq cur a b = some (eq a b)) ∧
    (cur.equal_to = none → ∀ t dist, cur.distance_to = some (t, dist) →
      operator_eq cur a b = some (dist a b == 0)) ∧
    (operator_eq cur a b = none ↔
      (concepts.has_equal_to cur = false ∧ concepts.has_distance_to cur = false)) := by
  refine ⟨?_, ?_, ?_⟩
  · intro eq he
    simp only [operator_eq, he]
  · intro he t dist hd
    simp only [operator_eq, he, hd]
  · unfold operator_eq concepts.has_equal_to concepts.has_distance_to
    cases cur.equal_to with
    | some eq => simp
    | none =>
      cases cur.distance_to with
      | some d => simp
      | none => simp

/-- C16: `++c` has the effect of `increment` whenever `increment` is present,
whether or not `advance` is; it has the effect of `advance(1)` when `increment`
is absent and `advance` present; it has no value exactly when neither is
present; and when it has one, the cursor it returns is the stepped cursor
itself. -/
theorem forward_step_fallback_order {σ ρ : Type} (cur : t_child σ ρ) (c : σ) :
    (∀ inc, cur.increment = some inc → operator_pre_inc cur c = some (inc c)) ∧
    (cur.increment = none → ∀ adv, cur.advance = some adv →
      operator_pre_inc cur c = some (adv c 1)) ∧
    (operator_pre_inc cur c = none ↔
      (concepts.has_increment cur = false ∧ concepts.has_advance cur = false)) ∧
    (∀ stepped, operator_pre_inc cur c = some stepped →
      by_reference (operator_pre_inc cur) c = some (stepped, stepped)) := by
  refine ⟨?_, ?_, ?_, ?_⟩
  · intro inc hi
    simp only [operator_pre_inc, hi]
  · intro hi adv ha
    simp only [operator_pre_inc, operator_plus_eq, hi, ha]
  · unfold operator_pre_inc operator_plus_eq concepts.has_increment concepts.has_advance
    cases cur.increment with
    | some inc => simp
    | none =>
      cases cur.advance with
      | some adv => simp
      | none => simp
  · intro stepped hs
    simp only [by_reference, hs]

/-- C17: `--c` has the effect of `decrement` whenever `decrement` is present,
whether or not `advance` is; it has the effect of `advance(-1)` when `decrement`
is absent and `advance` present; and it has no value exactly when neither is
present. -/
theorem backward_step_fallback_order {σ ρ : Type} (cur : t_child σ ρ) (c : σ) :
    (∀ dec, cur.decrement = some dec → operator_pre_dec cur c = some (dec c)) ∧
    (cur.decrement = none → ∀ adv, cur.advance = some adv →
      operator_pre_dec cur c = some (adv c (-1))) ∧
    (operator_pre_dec cur c = none ↔
      (concepts.has_decrement cur = false ∧ concepts.has_advance cur = false)) := by
  refine ⟨?_, ?_, ?_⟩
  · intro dec hd
    simp only [operator_pre_dec, hd]
  · intro hd adv ha
    simp only [operator_pre_dec, operator_minus_eq, operator_minus_offset, operator_plus,
      operator_plus_eq, hd, ha, neg_one]
  · unfold operator_pre_dec operator_minus_eq operator_minus_offset operator_plus
      operator_plus_eq concepts.has_decrement concepts.has_advance
    cases cur.decrement with
    | some dec => simp
    | none =>
      cases cur.advance with
      | some adv => simp
      | none => simp

/-! ## Ordering -/

/-- C18, counterexample: with `a` at the greatest `int` position and `b` at
position -1, `a <=> b` is less, although the position of `a` is not less than
that of `b`: `b.distance_to(a)` takes `a.m_pos - b.m_pos` in `int`, which cannot
hold `2^31`. -/
theorem citirator_ordering_not_by_position :
    operator_spaceship citirator_child (citirator.at_pos 2147483647) (citirator.at_pos (-1)) =
      some Ordering.lt ∧
    (citirator.at_pos 2147483647).m_pos = 2147483647 ∧
    (citirator.at_pos (-1)).m_pos = -1 := by
  decide

/-- C18, amended: for a cursor type providing `distance_to` and cursors `a`,
`b`, `a - b` is `b.distance_to(a)` and `a <=> b` compares that distance with
zero: it is less exactly when the distance is negative, greater exactly when it
is positive, equal exactly when it is zero.  On `citirator`, for cursors whose
difference of positions `a.m_pos - b.m_pos` is a value of `int` (any two
positions of the city range are such), `a < b` exactly when the position of `a`
is less than that of `b`. -/
theorem ordering_from_distance {σ ρ : Type} (cur : t_child σ ρ) (t : ity)
    (dist : σ → σ → Int) (hd : cur.distance_to = some (t, dist)) (a b : σ) :
    operator_minus cur a b = some ⟨t, dist b a⟩ ∧
    (∃ o, operator_spaceship cur a b = some o ∧
      (o = Ordering.lt ↔ dist b a < 0) ∧ (o = Ordering.gt ↔ 0 < dist b a) ∧
      (o = Ordering.eq ↔ dist b a = 0)) ∧
    (∀ x y : citirator, int_t.in_range (x.m_pos - y.m_pos) →
      (operator_spaceship citirator_child x y = some Ordering.lt ↔ x.m_pos < y.m_pos)) := by
  refine ⟨?_, ⟨compare (dist b a) 0, ?_, ?_, ?_, ?_⟩, ?_⟩
  · simp only [operator_minus, hd]
  · simp only [operator_spaceship, operator_minus, hd]
  · exact compare_lt_iff_lt
  · exact compare_gt_iff_gt
  · exact compare_eq_iff_eq
  · intro x y hxy
    rw [int_t_in_range] at hxy
    have hs : operator_spaceship citirator_child x y = some (compare (y.distance_to x) 0) := rfl
    rw [hs, Option.some.injEq, compare_lt_iff_lt, distance_to_val]
    omega

/-- The ordering of the `citirator` cursors at positions 0 and 3. -/
theorem ordering_from_distance_witness :
    operator_minus citirator_child (citirator.at_pos 0) (citirator.at_pos 3) =
      some ⟨ptrdiff_t, (citirator.at_pos 3).distance_to (citirator.at_pos 0)⟩ ∧
    (∃ o, operator_spaceship citirator_child (citirator.at_pos 0) (citirator.at_pos 3) = some o ∧
      (o = Ordering.lt ↔ (citirator.at_pos 3).distance_to (citirator.at_pos 0) < 0) ∧
      (o = Ordering.gt ↔ 0 < (citirator.at_pos 3).distance_to (citirator.at_pos 0)) ∧
      (o = Ordering.eq ↔ (citirator.at_pos 3).distance_to (citirator.at_pos 0) = 0)) ∧
    (∀ x y : citirator, int_t.in_range (x.m_pos - y.m_pos) →
      (operator_spaceship citirator_child x y = some Ordering.lt ↔ x.m_pos < y.m_pos)) :=
  ordering_from_distance citirator_child ptrdiff_t citirator.distance_to rfl
    (citirator.at_pos 0) (citirator.at_pos 3)

/-! ## Availability and commutation of offset arithmetic -/

/-- C19: each of `c + off`, `off + c`, `c += off`, `c - off`, `c -= off` and
`c[off]` has a value exactly when `has_advance` holds, whatever the other
capabilities are; the counter, which declares `dereference` and `increment`
only, has none of them. -/
theorem offset_arithmetic_availability {σ ρ : Type} (cur : t_child σ ρ) (c : σ) (off : cint) :
    ((operator_plus cur c off).isSome = concepts.has_advance cur ∧
      (operator_plus_left cur off c).isSome = concepts.has_advance cur ∧
      (operator_plus_eq cur c off).isSome = concepts.has_advance cur ∧
      (operator_minus_offset cur c off).isSome = concepts.has_advance cur ∧
      (operator_minus_eq cur c off).isSome = concepts.has_advance cur ∧
      (operator_index cur c off).isSome = concepts.has_advance cur) ∧
    (capabilities_of stepper_child = increment_only ∧
      ∀ (s : Nat) (o : cint), operator_plus stepper_child s o = none ∧
        operator_plus_left stepper_child o s = none ∧
        operator_plus_eq stepper_child s o = none ∧
        operator_minus_offset stepper_child s o = none ∧
        operator_minus_eq stepper_child s o = none ∧
        operator_index stepper_child s o = none) := by
  refine ⟨?_, rfl, fun s o => ⟨rfl, rfl, rfl, rfl, rfl, rfl⟩⟩
  unfold operator_index operator_minus_eq operator_minus_offset operator_plus_left
    operator_plus operator_plus_eq concepts.has_advance
  cases cur.advance with
  | some adv => simp
  | none => simp

/-- C20: for a cursor type providing `advance` and a cursor object `c`,
`c + n` and `n + c` return the same cursor, a copy of `c` advanced by `n`, and
both leave `c`, like every other cursor object there was, in the state it had;
`c += n` puts `c` in that advanced state, returns `c` itself and changes no
other cursor object. -/
theorem offset_addition_commutes {σ ρ : Type} (cur : t_child σ ρ) (adv : σ → Int → σ)
    (hadv : cur.advance = some adv) (st : List σ) (a : Nat) (c : σ)
    (hc : st[a]? = some c) (n : cint) :
    (∃ st', call_plus cur st a n = some (adv c n.val, st') ∧
      call_plus_left cur st n a = some (adv c n.val, st') ∧
      st'[a]? = some c ∧ (∀ b, b < st.length → st'[b]? = st[b]?)) ∧
    (∃ st', call_plus_eq cur st a n = some (a, st') ∧
      st'[a]? = some (adv c n.val) ∧ (∀ b, b ≠ a → st'[b]? = st[b]?)) ∧
    operator_plus cur c n = some (adv c n.val) ∧
    operator_plus_left cur n c = some (adv c n.val) ∧
    operator_plus_eq cur c n = some (adv c n.val) := by
  have ha := address_in_store st a c hc
  refine ⟨⟨st ++ [adv c n.val], call_plus_spec cur adv hadv st a c hc n,
    call_plus_left_spec cur adv hadv st a c hc n, ?_, fun b hb => store_extended _ _ _ hb⟩,
    ⟨st.set a (adv c n.val), call_plus_eq_spec cur adv hadv st a c hc n, ?_, ?_⟩, ?_, ?_, ?_⟩
  · rw [store_extended _ _ _ ha, hc]
  · simp [List.getElem?_set_self ha]
  · intro b hb
    simp [List.getElem?_set_ne hb.symm]
  · simp only [operator_plus, operator_plus_eq, hadv]
  · simp only [operator_plus_left, operator_plus_eq, hadv]
  · simp only [operator_plus_eq, hadv]

/-- Offset addition on the `citirator` object at position 0, alone in the
store, with the `int` offset 3. -/
theorem offset_addition_commutes_witness :
    (∃ st', call_plus citirator_child [citirator.at_pos 0] 0 ⟨int_t, 3⟩ =
        some (citirator.advance (citirator.at_pos 0) 3, st') ∧
      call_plus_left citirator_child [citirator.at_pos 0] ⟨int_t, 3⟩ 0 =
        some (citirator.advance (citirator.at_pos 0) 3, st') ∧
      st'[0]? = some (citirator.at_pos 0) ∧
      (∀ b, b < [citirator.at_pos 0].length → st'[b]? = [citirator.at_pos 0][b]?)) ∧
    (∃ st', call_plus_eq citirator_child [citirator.at_pos 0] 0 ⟨int_t, 3⟩ = some (0, st') ∧
      st'[0]? = some (citirator.advance (citirator.at_pos 0) 3) ∧
      (∀ b, b ≠ 0 → st'[b]? = [citirator.at_pos 0][b]?)) ∧
    operator_plus citirator_child (citirator.at_pos 0) ⟨int_t, 3⟩ =
      some (citirator.advance (citirator.at_pos 0) 3) ∧
    operator_plus_left citirator_child ⟨int_t, 3⟩ (citirator.at_pos 0) =
      some (citirator.advance (citirator.at_pos 0) 3) ∧
    operator_plus_eq citirator_child (citirator.at_pos 0) ⟨int_t, 3⟩ =
      some (citirator.advance (citirator.at_pos 0) 3) :=
  offset_addition_commutes citirator_child citirator.advance rfl [citirator.at_pos 0] 0
    (citirator.at_pos 0) rfl ⟨int_t, 3⟩

end bd
